import Mathlib

/-!
Verification of the `issue-worktree` scripts (git_worktree.py, private_links.py,
issue_worktree.py) against their natural-language specification.

The Python code is shallowly embedded: external state (the git worktree
registry, the ref namespace, the filesystem) is made explicit as record
fields, external commands are modelled by their recorded invocation plus an
environment-supplied exit status, and every side effect performed by the code
is recorded in an event trace.  Read-only queries (`git worktree list`,
`git show-ref` probes inside `ensure_worktree`) are modelled as lookups into
the environment rather than trace events; the trace records only the actions
that can change repository or filesystem state, plus the user-facing prints
and warnings that the spec talks about.
-/

/-! ## shell_quote (git_worktree.py, lines 103-106) -/

/-- Character class of the regex used by `shell_quote`'s fullmatch test:
letters, digits, and `@ % _ + = : , .` plus slash and hyphen. -/
def allowedChar (c : Char) : Bool :=
  c.isUpper || c.isLower || c.isDigit ||
    c ∈ ['@', '%', '_', '+', '=', ':', ',', '.', '/', '-']

/-- Expansion of one character performed by
`s.replace("'", "'\"'\"'")`: a single quote becomes the five characters
`'"'"'`, every other character is kept. -/
def escChar (c : Char) : List Char :=
  if c = '\'' then ['\'', '"', '\'', '"', '\''] else [c]

/-- Body of the quoted form: the replacement applied to every character. -/
def shBody (cs : List Char) : List Char :=
  match cs with
  | [] => []
  | c :: rest => escChar c ++ shBody rest

/-- List-of-characters version of `shell_quote`: the `re.fullmatch` against
one-or-more `allowedChar` succeeds exactly when the string
is non-empty and every character is in the class; on a match the string is
returned unchanged, otherwise it is wrapped in single quotes with every
embedded single quote replaced by `'"'"'`. -/
def shellQuoteL (cs : List Char) : List Char :=
  if !cs.isEmpty && cs.all allowedChar then cs
  else '\'' :: (shBody cs ++ ['\''])

/-- The Python function `shell_quote` (git_worktree.py:103-106). -/
def shell_quote (s : String) : String :=
  ⟨shellQuoteL s.data⟩

/-! A conservative model of POSIX shell word parsing, used to state that the
output of `shell_quote` is copy-paste safe.  The parser understands the three
quoting modes a single word can be in (unquoted, inside single quotes, inside
double quotes).  It is deliberately conservative: in unquoted position it
accepts only characters of the safe class (anything else — whitespace,
metacharacters, backslash, dollar — would need shell interpretation and makes
the parse fail), and inside double quotes it rejects the characters the shell
would expand (`$`, backslash, backquote).  On the strings `shell_quote`
produces these reject branches are never hit. -/

/-- Quoting mode of the word parser. -/
inductive SMode
  | unq
  | sq
  | dq
deriving DecidableEq

/-- One-word POSIX parser over characters: returns the literal word, or
`none` when the input is not a single self-contained word of the fragment
this model covers. -/
def shParse : List Char → SMode → List Char → Option (List Char)
  | [], .unq, acc => some acc.reverse
  | [], .sq, _ => none
  | [], .dq, _ => none
  | c :: cs, .unq, acc =>
    if c = '\'' then shParse cs .sq acc
    else if c = '"' then shParse cs .dq acc
    else if allowedChar c then shParse cs .unq (c :: acc)
    else none
  | c :: cs, .sq, acc =>
    if c = '\'' then shParse cs .unq acc
    else shParse cs .sq (c :: acc)
  | c :: cs, .dq, acc =>
    if c = '"' then shParse cs .unq acc
    else if c = '$' || c = '\\' || c.toNat = 96 then none
    else shParse cs .dq (c :: acc)

/-- Parse one shell word from a string. -/
def shellParseWord (s : String) : Option String :=
  (shParse s.data .unq []).map (fun l => ⟨l⟩)

/-! ## Reconciler model (git_worktree.py, ensure_worktree and helpers) -/

/-- Python truthiness-based `a or b` on strings (`"" ` is falsy). -/
def pyOrStr (a b : String) : String :=
  if a = "" then b else a

/-- Diagnostic carried by the fatal `die` in `ensure_worktree`'s execute
loop: either the stripped command output, or the generic message naming the
failed command (`f"执行失败：{c}"`). -/
inductive DieMsg
  | fromOutput (s : String)
  | generic (cmd : List String)
deriving DecidableEq

/-- Model of `msg = (e.stderr or e.stdout or "").strip(); die(msg or f"执行失败：{c}")`
(git_worktree.py:151-152).  Note the choice between stderr and stdout is made
before stripping: whitespace-only stderr wins the `or`, strips to empty, and
falls through to the generic message. -/
def failMsg (stderrS stdoutS : String) (cmd : List String) : DieMsg :=
  let m := (pyOrStr stderrS (pyOrStr stdoutS "")).trim
  if m = "" then .generic cmd else .fromOutput m

/-- External repository/filesystem state visible to `ensure_worktree`, plus
the environment's answers for the commands it may run.
`registry` models the branch→path mapping returned by
`parse_worktree_list`; `refs` is the set of full ref names for which the
`git show-ref --verify` probe of `ref_exists` reports existence (the probe
commands are assumed to execute); `diskPaths` is the set of filesystem paths
for which `Path.exists()` is true; `fetchExit`/`addExit` and the two output
fields are the exit status and captured output the environment assigns to
the fetch command and to the worktree-add command. -/
structure RepoEnv where
  registry : List (String × String)
  refs : List String
  diskPaths : List String
  fetchExit : Nat
  addExit : Nat
  addStdout : String
  addStderr : String
deriving DecidableEq

/-- Side effects performed (and user-visible messages emitted) by
`ensure_worktree`. -/
inductive WtEvent
  | mkdirParentsOf (p : String)
  | runCmd (c : List String)
  | printEv (s : String)
  | warnEv (s : String)
deriving DecidableEq

/-- Events that mutate repository or filesystem state: directory creation and
executed external commands (fetch, worktree add). -/
def isMutationEvent : WtEvent → Bool
  | .mkdirParentsOf _ => true
  | .runCmd _ => true
  | _ => false

/-- Warning events. -/
def isWarnEvent : WtEvent → Bool
  | .warnEv _ => true
  | _ => false

/-- Terminal outcome of one `ensure_worktree` call. -/
inductive WtOutcome
  | reused (path : String)
  | dryPreview (lines : List String)
  | created
  | pathCollision (path : String)
  | creationFailed (msg : DieMsg)
deriving DecidableEq

/-- The fetch command `["git", "fetch", "--prune", "origin", base]`
(git_worktree.py:133). -/
def fetch_cmd (base : String) : List String :=
  ["git", "fetch", "--prune", "origin", base]

/-- The worktree-add command (git_worktree.py:129-137): if
`refs/heads/<branch>` exists the worktree is added checked out to the
existing branch; otherwise a new branch is created with `-b` from
`origin/<base>` when the remote-tracking ref exists, else from the bare
base name. -/
def add_cmd (env : RepoEnv) (branch wtPath base : String) : List String :=
  let branchExists := ("refs/heads/" ++ branch) ∈ env.refs
  let baseRef :=
    if ("refs/remotes/origin/" ++ base) ∈ env.refs then "origin/" ++ base else base
  if branchExists then ["git", "worktree", "add", wtPath, branch]
  else ["git", "worktree", "add", "-b", branch, wtPath, baseRef]

/-- The ordered command plan `cmds` built by `ensure_worktree`
(git_worktree.py:132-137). -/
def plan_cmds (env : RepoEnv) (branch wtPath base : String) : List (List String) :=
  [fetch_cmd base, add_cmd env branch wtPath base]

/-- Space-joined rendering, the model of `" ".join(...)`. -/
def joinSpace : List String → String
  | [] => ""
  | [x] => x
  | x :: xs => x ++ " " ++ joinSpace xs

/-- One dry-run preview line: `print("  " + " ".join(shell_quote(x) for x in c))`
(git_worktree.py:142). -/
def renderCmd (c : List String) : String :=
  "  " ++ joinSpace (c.map shell_quote)

/-- Result of one `ensure_worktree` call: the terminal outcome, the trace of
performed effects, and the external state afterwards. -/
structure WtRun where
  outcome : WtOutcome
  trace : List WtEvent
  env : RepoEnv
deriving DecidableEq

/-- The Python function `ensure_worktree` (git_worktree.py:109-152), with
`die` modelled as returning the failing outcome (the process halts there).
Successful execution of the worktree-add command registers the branch at the
target path and makes the path exist; a failing add is modelled as leaving
the recorded state unchanged.  The fetch step is run with `check=False`
(git_worktree.py:146): its exit status is ignored and no warning is emitted
(`warn` is never called in the source function). -/
def ensure_worktree (env : RepoEnv) (branch wtPath base : String) (dryRun : Bool) : WtRun :=
  match List.lookup branch env.registry with
  | some p => ⟨.reused p, [.printEv p], env⟩
  | none =>
    if wtPath ∈ env.diskPaths then
      ⟨.pathCollision wtPath, [], env⟩
    else if dryRun then
      -- worktree_path.parent.mkdir(...) at line 127 runs before the dry-run
      -- check at line 139, so the mkdir effect is in the dry-run trace too.
      ⟨.dryPreview ((plan_cmds env branch wtPath base).map renderCmd),
       [.mkdirParentsOf wtPath], env⟩
    else if env.addExit = 0 then
      ⟨.created,
       [.mkdirParentsOf wtPath, .runCmd (fetch_cmd base),
        .runCmd (add_cmd env branch wtPath base)],
       { env with registry := (branch, wtPath) :: env.registry,
                  diskPaths := wtPath :: env.diskPaths }⟩
    else
      ⟨.creationFailed (failMsg env.addStderr env.addStdout (add_cmd env branch wtPath base)),
       [.mkdirParentsOf wtPath, .runCmd (fetch_cmd base),
        .runCmd (add_cmd env branch wtPath base)],
       env⟩

/-! ## Link materializer model (private_links.py) -/

/-- What a filesystem path is, for the destination checks of `apply_links`:
a regular file, a real directory, or a symlink.  A symlink's recorded target
is the already-resolved absolute path it points at (the model of
`_is_same_symlink`, which resolves the stored link text before comparing). -/
inductive FileKind
  | file
  | dir
  | symlinkTo (target : String)
deriving DecidableEq

/-- Filesystem state visible to `apply_links`: `fs` maps a destination path
to what currently sits there (absent paths are not in the list; the
condition `dest.exists() or dest.is_symlink()` of the source is exactly
membership here, broken symlinks included), and `srcPaths` is the set of
source paths whose `Path.exists()` is true.  `_expand_path` is modelled as
the identity: the sources of a document are taken to be given already
expanded and resolved. -/
structure LinksEnv where
  fs : List (String × FileKind)
  srcPaths : List String
deriving DecidableEq

/-- Fatal errors `apply_links` can die with while processing specs:
unsafe destination (absolute or parent-traversal, or escaping the worktree
after resolution), existing-and-different destination without force, and
force against a real directory. -/
inductive LinkErr
  | unsafeDest (rawDest : String)
  | conflict (dest : String)
  | forceDirRefused (dest : String)
deriving DecidableEq

/-- Side effects and user-visible messages of `apply_links` processing. -/
inductive LinkEvent
  | warnMissingSource (src : String)
  | unlinkAt (dest : String)
  | mkdirParentsAt (dest : String)
  | symlinkAt (src dest : String)
  | dryReplaceMsg (dest src : String)
  | dryLinkMsg (src dest : String)
deriving DecidableEq

/-- Does the event create a symbolic link? -/
def isSymlinkEvent : LinkEvent → Bool
  | .symlinkAt _ _ => true
  | _ => false

/-- Split a relative path on slashes into components. -/
def partsAux : List Char → List Char → List String
  | [], cur => [⟨cur.reverse⟩]
  | c :: cs, cur =>
    if c = '/' then (⟨cur.reverse⟩ : String) :: partsAux cs []
    else partsAux cs (c :: cur)

/-- Model of `PurePosixPath(raw).parts` for a relative path: split on
slashes, dropping empty components and single dots (pathlib normalises
both away) and keeping `..` components. -/
def pathParts (s : String) : List String :=
  (partsAux s.data []).filter (fun p => p != "" && p != ".")

/-- Model of `PurePosixPath(raw).is_absolute()`: the path starts with a
slash. -/
def isAbsolutePath (s : String) : Bool :=
  match s.data with
  | [] => false
  | c :: _ => c = '/'

/-- Join path components with slashes. -/
def joinParts : List String → String
  | [] => ""
  | [p] => p
  | p :: ps => p ++ "/" ++ joinParts ps

/-- Model of `(worktree_path / dest_rel).resolve()` for a relative
`dest_rel` with no `..` component left: the plain join (the model assumes no
symlinked intermediate directory, so resolution does not rewrite the
prefix).  An empty component list resolves to the worktree root itself, with
no trailing slash — exactly the case the containment check below rejects. -/
def joinUnder (wt : String) (parts : List String) : String :=
  match parts with
  | [] => wt
  | _ => wt ++ "/" ++ joinParts parts

/-- Model of `str.startswith`. -/
def strStarts (pre s : String) : Bool :=
  pre.data.isPrefixOf s.data

/-- Model of `_is_same_symlink(dest, src)` (private_links.py:22-32): true
exactly when the destination is a symlink whose resolved target equals the
resolved source (targets are stored resolved in `FileKind.symlinkTo`). -/
def sameSymlink (k : FileKind) (src : String) : Bool :=
  match k with
  | .symlinkTo t => t == src
  | _ => false

/-- Processing of one `(raw_src, raw_dest)` pair by the loop body of
`apply_links` (private_links.py:73-103), in source order: source-existence
check (missing source warns and skips), destination-shape check (absolute or
`..` dies), containment re-check after resolution, already-correct-symlink
skip, conflict without force, force against a real directory, replacement
(unlink guarded by dry-run), parent-directory creation (not guarded by
dry-run), and link creation (guarded by dry-run). -/
def linkStep (env : LinksEnv) (wt rawSrc rawDest : String) (dryRun force : Bool) :
    Except LinkErr (List LinkEvent × LinksEnv) :=
  if !(env.srcPaths.contains rawSrc) then .ok ([.warnMissingSource rawSrc], env)
  else if isAbsolutePath rawDest || (pathParts rawDest).contains ".." then
    .error (.unsafeDest rawDest)
  else
    let dest := joinUnder wt (pathParts rawDest)
    if !(strStarts (wt ++ "/") dest) then .error (.unsafeDest rawDest)
    else
      match env.fs.lookup dest with
      | some k =>
        if sameSymlink k rawSrc then .ok ([], env)
        else if !force then .error (.conflict dest)
        else if k = .dir then .error (.forceDirRefused dest)
        else if dryRun then
          .ok ([.dryReplaceMsg dest rawSrc, .mkdirParentsAt dest, .dryLinkMsg rawSrc dest], env)
        else
          .ok ([.unlinkAt dest, .mkdirParentsAt dest, .symlinkAt rawSrc dest],
               { env with
                  fs := (dest, .symlinkTo rawSrc) :: env.fs.eraseP (fun e => e.1 == dest) })
      | none =>
        if dryRun then .ok ([.mkdirParentsAt dest, .dryLinkMsg rawSrc dest], env)
        else
          .ok ([.mkdirParentsAt dest, .symlinkAt rawSrc dest],
               { env with fs := (dest, .symlinkTo rawSrc) :: env.fs })

deriving instance DecidableEq for Except

/-- Result of `apply_links` over a parsed document: the overall verdict, the
concatenated event trace, and the filesystem afterwards. -/
structure LinkRun where
  res : Except LinkErr Unit
  trace : List LinkEvent
  env : LinksEnv
deriving DecidableEq

/-- The loop of `apply_links` (private_links.py:51-103) over the parsed
`(src, dest)` list: process specs in order; a fatal `die` halts the whole
run at the offending spec with no further effect. -/
def apply_links (env : LinksEnv) (wt : String) (specs : List (String × String))
    (dryRun force : Bool) : LinkRun :=
  match specs with
  | [] => ⟨.ok (), [], env⟩
  | (s, d) :: rest =>
    match linkStep env wt s d dryRun force with
    | .error e => ⟨.error e, [], env⟩
    | .ok (evs, env1) =>
      let r := apply_links env1 wt rest dryRun force
      ⟨r.res, evs ++ r.trace, r.env⟩

/-! ## Links-document parsing (private_links.py, _parse_links) -/

/-- One entry of the links document, restricted to the four keys the parser
consults; a field is `none` when the key is absent.  The model covers
documents whose present values are strings (the claim's well-formed
entries); `str(...)` applied to a string is the identity. -/
structure RawEntry where
  src : Option String
  source : Option String
  dest : Option String
  target : Option String
deriving DecidableEq

/-- Python `a or b` over optional strings as returned by `dict.get`:
`None` and the empty string are falsy. -/
def pyOrOpt : Option String → Option String → Option String
  | some s, b => if s = "" then b else some s
  | none, b => b

/-- Parsing of one entry (private_links.py:43-47): the source is
`item.get("src") or item.get("source")`, the destination is
`item.get("dest") or item.get("target")`; if either result is falsy
(`None` or empty) the parse dies (`none` here). -/
def parseEntry (e : RawEntry) : Option (String × String) :=
  match pyOrOpt e.src e.source, pyOrOpt e.dest e.target with
  | some s, some d => if s = "" || d = "" then none else some (s, d)
  | _, _ => none

/-- The loop of `_parse_links` (private_links.py:39-48): entries are parsed
in order and the first invalid entry dies reporting its index. -/
def parseLinksFrom (i : Nat) : List RawEntry → Except Nat (List (String × String))
  | [] => .ok []
  | e :: es =>
    match parseEntry e with
    | none => .error i
    | some pr =>
      match parseLinksFrom (i + 1) es with
      | .error j => .error j
      | .ok rest => .ok (pr :: rest)

/-- The Python function `_parse_links` on a JSON array of objects. -/
def parse_links (es : List RawEntry) : Except Nat (List (String × String)) :=
  parseLinksFrom 0 es

/-! ## ref_exists (git_worktree.py, lines 52-57) -/

/-- Result of attempting to run one external command: it either ran to
completion with an exit status and captured output, or could not be spawned
at all (missing executable, OS error). -/
inductive CmdOutcome
  | completed (exitCode : Nat) (stdoutS stderrS : String)
  | spawnFailure
deriving DecidableEq

/-- The Python exceptions relevant to `run`: `subprocess.CalledProcessError`
for a non-zero exit under `check=True`, and the OS-level errors
(`FileNotFoundError` and friends) a failed spawn raises. -/
inductive PyError
  | calledProcessError
  | osError
deriving DecidableEq

/-- Model of `run(args, check=True)` (git_worktree.py:35-49): a zero exit
returns the completed process, a non-zero exit raises
`CalledProcessError`, a spawn failure raises an OS error. -/
def runChecked (oc : CmdOutcome) : Except PyError CmdOutcome :=
  match oc with
  | .completed 0 o e => .ok (.completed 0 o e)
  | .completed _ _ _ => .error .calledProcessError
  | .spawnFailure => .error .osError

/-- The Python function `ref_exists` (git_worktree.py:52-57) over an
environment assigning each (repo root, ref) probe its command outcome:
`except subprocess.CalledProcessError: return False` catches exactly the
non-zero-exit case; a spawn failure is not caught and propagates. -/
def ref_exists (probe : String → String → CmdOutcome) (repoRoot ref : String) :
    Except PyError Bool :=
  match runChecked (probe repoRoot ref) with
  | .ok _ => .ok true
  | .error .calledProcessError => .ok false
  | .error .osError => .error .osError

/-! ## Lemmas about shell quoting and parsing -/

/-- A run of safe characters parses literally in unquoted mode. -/
theorem shParse_literal (cs : List Char) : ∀ acc : List Char,
    cs.all allowedChar = true → shParse cs SMode.unq acc = some (acc.reverse ++ cs) := by
  induction cs with
  | nil => intro acc _; simp [shParse]
  | cons c cs ih =>
    intro acc h
    simp only [List.all_cons, Bool.and_eq_true] at h
    have hq : c ≠ '\'' := by rintro rfl; simp [allowedChar] at h
    have hd : c ≠ '"' := by rintro rfl; simp [allowedChar] at h
    simp only [shParse, if_neg hq, if_neg hd, h.1, if_true]
    rw [ih (c :: acc) h.2]
    simp

/-- Consuming the quoted body from inside single quotes, then the closing
quote, recovers the original characters. -/
theorem shParse_body (cs : List Char) : ∀ acc : List Char,
    shParse (shBody cs ++ ['\'']) SMode.sq acc = some (acc.reverse ++ cs) := by
  induction cs with
  | nil => intro acc; simp [shBody, shParse]
  | cons c cs ih =>
    intro acc
    by_cases hc : c = '\''
    · subst hc
      simp only [shBody, escChar, if_pos rfl, List.cons_append, List.append_assoc]
      simp only [shParse]
      norm_num
      rw [ih]
      simp
    · simp only [shBody, escChar, if_neg hc, List.cons_append, List.singleton_append]
      simp only [shParse, if_neg hc]
      rw [List.nil_append, ih (c :: acc)]
      simp

/-- The escaped body is never shorter than the original. -/
theorem shBody_length (cs : List Char) : cs.length ≤ (shBody cs).length := by
  induction cs with
  | nil => simp [shBody]
  | cons c cs ih =>
    simp only [shBody, escChar, List.length_append, List.length_cons]
    by_cases hc : c = '\'' <;> simp [hc] <;> omega

/-- The safe-string condition, unfolded. -/
theorem safeCond_iff (cs : List Char) :
    (!cs.isEmpty && cs.all allowedChar) = true ↔ (cs ≠ [] ∧ cs.all allowedChar = true) := by
  cases cs <;> simp

/-- When the safe-string test fails, the quoted form differs from the
input (it is strictly longer). -/
theorem shellQuoteL_ne (cs : List Char) (h : ¬((!cs.isEmpty && cs.all allowedChar) = true)) :
    shellQuoteL cs ≠ cs := by
  rw [shellQuoteL, if_neg h]
  intro heq
  have hl := congrArg List.length heq
  simp only [List.length_cons, List.length_append, List.length_singleton] at hl
  have := shBody_length cs
  omega

/-- Parsing the output of the quoting function always recovers the input. -/
theorem shellQuoteL_roundtrip (cs : List Char) :
    shParse (shellQuoteL cs) SMode.unq [] = some cs := by
  by_cases h : (!cs.isEmpty && cs.all allowedChar) = true
  · rw [shellQuoteL, if_pos h]
    rw [shParse_literal cs [] ((safeCond_iff cs).mp h).2]
    simp
  · rw [shellQuoteL, if_neg h]
    simp only [shParse, if_pos rfl]
    rw [shParse_body cs []]
    simp

/-! ## Lemmas about apply_links -/

/-- A list is a prefix of itself followed by anything. -/
theorem isPrefixOf_self_append (l m : List Char) : l.isPrefixOf (l ++ m) = true := by
  induction l with
  | nil => simp [List.isPrefixOf]
  | cons c cs ih => simp [List.isPrefixOf, ih]

/-- The resolved destination of a non-trivial safe relative path starts
with the worktree root plus a slash, so the containment re-check passes. -/
theorem strStarts_joinUnder (wt : String) (parts : List String) (h : parts ≠ []) :
    strStarts (wt ++ "/") (joinUnder wt parts) = true := by
  match parts with
  | [] => exact absurd rfl h
  | p :: ps =>
    show strStarts (wt ++ "/") (wt ++ "/" ++ joinParts (p :: ps)) = true
    unfold strStarts
    rw [String.data_append]
    exact isPrefixOf_self_append _ _

/-- Splitting an `apply_links` run after a successful prefix: the whole run
is the prefix's effects followed by the run over the remaining specs from
the state the prefix reached. -/
theorem apply_links_append (wt : String) (post : List (String × String))
    (dryRun force : Bool) : ∀ (pre : List (String × String)) (env : LinksEnv),
    (apply_links env wt pre dryRun force).res = .ok () →
    apply_links env wt (pre ++ post) dryRun force =
      ⟨(apply_links (apply_links env wt pre dryRun force).env wt post dryRun force).res,
       (apply_links env wt pre dryRun force).trace ++
         (apply_links (apply_links env wt pre dryRun force).env wt post dryRun force).trace,
       (apply_links (apply_links env wt pre dryRun force).env wt post dryRun force).env⟩ := by
  intro pre
  induction pre with
  | nil => intro env _; simp [apply_links]
  | cons sd rest ih =>
    intro env h
    obtain ⟨s, d⟩ := sd
    simp only [List.cons_append, apply_links] at h ⊢
    cases hs : linkStep env wt s d dryRun force with
    | error e =>
      rw [hs] at h
      simp at h
    | ok pr =>
      obtain ⟨evs, env1⟩ := pr
      rw [hs] at h
      simp only [List.append_eq] at h ⊢
      rw [ih env1 h]
      simp [List.append_assoc]

/-! ## Claim theorems -/

/-- C10: `shell_quote` returns its argument unchanged exactly when the
argument is non-empty and consists only of the safe characters (letters,
digits, `@ % _ + = : , .`, slash, hyphen); and in every case POSIX-shell
word-parsing of its output recovers the original string, so the dry-run
rendering is copy-paste safe. -/
theorem shell_quote_correct (s : String) :
    (shell_quote s = s ↔ (s.data ≠ [] ∧ s.data.all allowedChar = true)) ∧
    shellParseWord (shell_quote s) = some s := by
  refine ⟨⟨?_, ?_⟩, ?_⟩
  · intro h
    by_cases hc : (!s.data.isEmpty && s.data.all allowedChar) = true
    · exact (safeCond_iff s.data).mp hc
    · have hd : shellQuoteL s.data = s.data := congrArg String.data h
      exact absurd hd (shellQuoteL_ne _ hc)
  · intro hcond
    have hc := (safeCond_iff s.data).mpr hcond
    show (⟨shellQuoteL s.data⟩ : String) = s
    rw [shellQuoteL, if_pos hc]
  · show ((shParse (shellQuoteL s.data) SMode.unq []).map fun l => (⟨l⟩ : String)) = some s
    rw [shellQuoteL_roundtrip]
    rfl

/-- C8 counterexample: when the probe command cannot be spawned at all
(e.g., the git binary is missing), `ref_exists` propagates the error
instead of returning false — `except subprocess.CalledProcessError`
does not catch it. -/
theorem ref_exists_spawn_error_counterexample :
    ref_exists (fun _ _ => CmdOutcome.spawnFailure) "/repo" "refs/heads/main" =
      .error .osError := rfl

/-- C8 amended: whenever the ref-query command itself runs to completion,
`ref_exists` never raises — it returns true on exit 0 and false on any
non-zero exit (a missing ref or any other command failure); only an
inability to execute the command at all propagates as an exception. -/
theorem ref_exists_completed_total (probe : String → String → CmdOutcome)
    (repoRoot r out errS : String) (ec : Nat)
    (h : probe repoRoot r = .completed ec out errS) :
    ref_exists probe repoRoot r = .ok (ec == 0) := by
  unfold ref_exists runChecked
  rw [h]
  cases ec with
  | zero => rfl
  | succ n => rfl

theorem ref_exists_completed_total_witness :
    ref_exists (fun _ _ => CmdOutcome.completed 1 "" "fatal: bad ref") "/repo" "refs/heads/x" =
      .ok false ∧
    ref_exists (fun _ _ => CmdOutcome.completed 0 "" "") "/repo" "refs/heads/main" =
      .ok true :=
  ⟨ref_exists_completed_total _ "/repo" "refs/heads/x" "" "fatal: bad ref" 1 rfl,
   ref_exists_completed_total _ "/repo" "refs/heads/main" "" "" 0 rfl⟩

/-- C9 counterexample: in the entry whose `src` key is present with the
empty string and whose `source` key is "a", the parsed source is "a" — the
present `src` key does not win, because Python's `or` skips falsy values. -/
theorem parse_links_empty_src_counterexample :
    parse_links [⟨some "", some "a", some "d", none⟩] = .ok [("a", "d")] ∧
    (RawEntry.mk (some "") (some "a") (some "d") none).src = some "" :=
  ⟨rfl, rfl⟩

/-- C9 amended: the parsed source is the value of `src` when that key is
present with a nonempty value, else the value of `source`, and likewise
`dest` before `target` — first-present-with-a-truthy-value wins; an alias
present with an empty value is treated as absent. -/
theorem parse_entry_first_truthy_alias_wins (s2 t : Option String) (sv dv : String)
    (hs : sv ≠ "") (hd : dv ≠ "") :
    parseEntry ⟨some sv, s2, some dv, t⟩ = some (sv, dv) ∧
    parseEntry ⟨none, some sv, none, some dv⟩ = some (sv, dv) ∧
    parseEntry ⟨some "", some sv, some "", some dv⟩ = some (sv, dv) := by
  refine ⟨?_, ?_, ?_⟩ <;> simp [parseEntry, pyOrOpt, hs, hd]

theorem parse_entry_first_truthy_alias_wins_witness :
    parseEntry ⟨some "A", some "zz", some "B", none⟩ = some ("A", "B") ∧
    parseEntry ⟨none, some "A", none, some "B"⟩ = some ("A", "B") ∧
    parseEntry ⟨some "", some "A", some "", some "B"⟩ = some ("A", "B") :=
  parse_entry_first_truthy_alias_wins (some "zz") none "A" "B" (by decide) (by decide)

/-- C3: a request whose branch is already a key of the worktree registry is
answered with the reused outcome at the registered path, with no mutation
event and unchanged state; consequently a successful reconciliation
re-invoked with the same request performs no second mutation and reports
the same path the first call created. -/
theorem ensure_worktree_reuse_idempotent (env : RepoEnv) (branch wtPath base : String)
    (dryRun : Bool) :
    (∀ p, List.lookup branch env.registry = some p →
       ensure_worktree env branch wtPath base dryRun = ⟨.reused p, [.printEv p], env⟩ ∧
       (ensure_worktree env branch wtPath base dryRun).trace.filter isMutationEvent = []) ∧
    (List.lookup branch env.registry = none → wtPath ∉ env.diskPaths → env.addExit = 0 →
       (ensure_worktree env branch wtPath base false).outcome = .created ∧
       ensure_worktree (ensure_worktree env branch wtPath base false).env branch wtPath base false =
         ⟨.reused wtPath, [.printEv wtPath], (ensure_worktree env branch wtPath base false).env⟩ ∧
       (ensure_worktree (ensure_worktree env branch wtPath base false).env branch
           wtPath base false).trace.filter isMutationEvent = []) := by
  constructor
  · intro p hp
    constructor
    · simp [ensure_worktree, hp]
    · simp [ensure_worktree, hp, isMutationEvent]
  · intro h1 h2 h3
    have hrun : ensure_worktree env branch wtPath base false =
        ⟨.created,
         [.mkdirParentsOf wtPath, .runCmd (fetch_cmd base),
          .runCmd (add_cmd env branch wtPath base)],
         { env with registry := (branch, wtPath) :: env.registry,
                    diskPaths := wtPath :: env.diskPaths }⟩ := by
      simp [ensure_worktree, h1, h2, h3]
    rw [hrun]
    refine ⟨rfl, ?_, ?_⟩
    · simp [ensure_worktree, List.lookup]
    · simp [ensure_worktree, List.lookup, isMutationEvent]

theorem ensure_worktree_reuse_idempotent_witness :
    ensure_worktree ⟨[("b", "/w/b")], [], ["/w/b"], 0, 0, "", ""⟩ "b" "/new" "main" false =
      ⟨.reused "/w/b", [.printEv "/w/b"], ⟨[("b", "/w/b")], [], ["/w/b"], 0, 0, "", ""⟩⟩ ∧
    (ensure_worktree ⟨[], [], [], 0, 0, "", ""⟩ "b" "/w/b" "main" false).outcome = .created :=
  ⟨((ensure_worktree_reuse_idempotent ⟨[("b", "/w/b")], [], ["/w/b"], 0, 0, "", ""⟩
      "b" "/new" "main" false).1 "/w/b" (by decide)).1,
   ((ensure_worktree_reuse_idempotent ⟨[], [], [], 0, 0, "", ""⟩
      "b" "/w/b" "main" false).2 (by decide) (by decide) rfl).1⟩

/-- C4: a request whose branch is not registered but whose target path
already exists on disk dies with the path-collision error, with an empty
effect trace (no mutation) and unchanged state, for either value of the
dry-run flag. -/
theorem ensure_worktree_path_collision (env : RepoEnv) (branch wtPath base : String)
    (dryRun : Bool) (h1 : List.lookup branch env.registry = none)
    (h2 : wtPath ∈ env.diskPaths) :
    ensure_worktree env branch wtPath base dryRun = ⟨.pathCollision wtPath, [], env⟩ := by
  simp [ensure_worktree, h1, h2]

theorem ensure_worktree_path_collision_witness :
    ensure_worktree ⟨[("other", "/w/other")], [], ["/w/b"], 0, 0, "", ""⟩ "b" "/w/b" "main" true =
      ⟨.pathCollision "/w/b", [], ⟨[("other", "/w/other")], [], ["/w/b"], 0, 0, "", ""⟩⟩ ∧
    ensure_worktree ⟨[("other", "/w/other")], [], ["/w/b"], 0, 0, "", ""⟩ "b" "/w/b" "main" false =
      ⟨.pathCollision "/w/b", [], ⟨[("other", "/w/other")], [], ["/w/b"], 0, 0, "", ""⟩⟩ :=
  ⟨ensure_worktree_path_collision _ "b" "/w/b" "main" true (by decide) (by decide),
   ensure_worktree_path_collision _ "b" "/w/b" "main" false (by decide) (by decide)⟩

/-- C2: dry-run is not mutation-free — with the dry-run flag set the
Reconciler renders the planned commands but still creates the target's
parent directories (the mkdir at git_worktree.py:127 precedes the dry-run
check at line 139), and the Materializer still creates destination parent
directories (the mkdir at private_links.py:99 sits outside the dry-run
guard), so the claimed purity fails at any input whose parent directories
are missing. -/
theorem dry_run_mkdir_mutation :
    (ensure_worktree ⟨[], [], [], 0, 0, "", ""⟩ "b" "/wts/r/b" "main" true =
       ⟨.dryPreview ["  git fetch --prune origin main",
                     "  git worktree add -b b /wts/r/b main"],
        [.mkdirParentsOf "/wts/r/b"], ⟨[], [], [], 0, 0, "", ""⟩⟩) ∧
    isMutationEvent (.mkdirParentsOf "/wts/r/b") = true ∧
    (apply_links ⟨[], ["/s"]⟩ "/wt" [("/s", ".env")] true false =
       ⟨.ok (), [.mkdirParentsAt "/wt/.env", .dryLinkMsg "/s" "/wt/.env"], ⟨[], ["/s"]⟩⟩) := by
  refine ⟨by decide, rfl, by decide⟩

/-- C6 counterexample: with the fetch command failing (exit 1) the
reconciliation still succeeds, but silently — no warning event appears in
the trace (the source never calls `warn`), contradicting the claim that
fetch failure is logged as a warning. -/
theorem fetch_failure_no_warning_counterexample :
    (ensure_worktree ⟨[], [], [], 1, 0, "", ""⟩ "b" "/w/b" "main" false).outcome = .created ∧
    (ensure_worktree ⟨[], [], [], 1, 0, "", ""⟩ "b" "/w/b" "main"
        false).trace.filter isWarnEvent = [] := by
  refine ⟨by decide, by decide⟩

/-- C6 amended: during execution the fetch step's exit status never
affects the outcome and no warning is emitted; a non-zero exit of the
worktree-add step is fatal with diagnostic chosen as the stripped stderr
if stderr is nonempty, else the stripped stdout if stdout is nonempty,
else a generic message naming the command (whitespace-only stderr strips
to empty and falls to the generic message, not to stdout). -/
theorem ensure_worktree_fetch_tolerated_add_fatal (env : RepoEnv)
    (branch wtPath base : String)
    (h1 : List.lookup branch env.registry = none) (h2 : wtPath ∉ env.diskPaths) :
    (ensure_worktree env branch wtPath base false).trace.filter isWarnEvent = [] ∧
    (env.addExit = 0 → (ensure_worktree env branch wtPath base false).outcome = .created) ∧
    (env.addExit ≠ 0 →
       (ensure_worktree env branch wtPath base false).outcome =
         .creationFailed (failMsg env.addStderr env.addStdout
           (add_cmd env branch wtPath base))) := by
  refine ⟨?_, ?_, ?_⟩
  · by_cases h3 : env.addExit = 0 <;> simp [ensure_worktree, h1, h2, h3, isWarnEvent]
  · intro h3; simp [ensure_worktree, h1, h2, h3]
  · intro h3; simp [ensure_worktree, h1, h2, h3]

theorem ensure_worktree_fetch_tolerated_add_fatal_witness :
    (ensure_worktree ⟨[], [], [], 1, 2, "out", " "⟩ "b" "/w/b" "main" false).outcome =
      .creationFailed (failMsg " " "out" (add_cmd ⟨[], [], [], 1, 2, "out", " "⟩ "b" "/w/b" "main")) :=
  (ensure_worktree_fetch_tolerated_add_fatal ⟨[], [], [], 1, 2, "out", " "⟩
    "b" "/w/b" "main" rfl (by decide)).2.2 (by decide)

/-- C7: base-reference resolution of the plan — when the desired branch
does not exist locally the worktree-add command creates it with the new
branch option from `origin/<base>` if the remote-tracking ref exists and
from the bare base name otherwise; when the local branch exists the
worktree is added checked out to that branch and the command carries no
base reference. -/
theorem plan_base_resolution (env : RepoEnv) (branch wtPath base : String) :
    (("refs/heads/" ++ branch) ∉ env.refs →
       (("refs/remotes/origin/" ++ base) ∈ env.refs →
          plan_cmds env branch wtPath base =
            [fetch_cmd base,
             ["git", "worktree", "add", "-b", branch, wtPath, "origin/" ++ base]]) ∧
       (("refs/remotes/origin/" ++ base) ∉ env.refs →
          plan_cmds env branch wtPath base =
            [fetch_cmd base, ["git", "worktree", "add", "-b", branch, wtPath, base]])) ∧
    (("refs/heads/" ++ branch) ∈ env.refs →
       plan_cmds env branch wtPath base =
         [fetch_cmd base, ["git", "worktree", "add", wtPath, branch]]) := by
  constructor
  · intro hb
    constructor
    · intro hr; simp [plan_cmds, add_cmd, hb, hr]
    · intro hr; simp [plan_cmds, add_cmd, hb, hr]
  · intro hb; simp [plan_cmds, add_cmd, hb]

theorem plan_base_resolution_witness :
    plan_cmds ⟨[], ["refs/remotes/origin/main"], [], 0, 0, "", ""⟩ "b" "/w/b" "main" =
      [fetch_cmd "main", ["git", "worktree", "add", "-b", "b", "/w/b", "origin/main"]] ∧
    plan_cmds ⟨[], [], [], 0, 0, "", ""⟩ "b" "/w/b" "main" =
      [fetch_cmd "main", ["git", "worktree", "add", "-b", "b", "/w/b", "main"]] ∧
    plan_cmds ⟨[], ["refs/heads/b"], [], 0, 0, "", ""⟩ "b" "/w/b" "main" =
      [fetch_cmd "main", ["git", "worktree", "add", "/w/b", "b"]] :=
  ⟨((plan_base_resolution ⟨[], ["refs/remotes/origin/main"], [], 0, 0, "", ""⟩
      "b" "/w/b" "main").1 (by decide)).1 (by decide),
   ((plan_base_resolution ⟨[], [], [], 0, 0, "", ""⟩
      "b" "/w/b" "main").1 (by decide)).2 (by decide),
   (plan_base_resolution ⟨[], ["refs/heads/b"], [], 0, 0, "", ""⟩
      "b" "/w/b" "main").2 (by decide)⟩

/-- C1 counterexample: a document whose offending spec comes second has
already created the first spec's link by the time the unsafe-destination
`die` fires — it fails with the unsafe-destination error, yet one symbolic
link from that document exists, so "creates zero links regardless of the
position of the offending spec" is false. -/
theorem apply_links_halts_midway_counterexample :
    (apply_links ⟨[], ["/s1", "/s2"]⟩ "/wt" [("/s1", ".a"), ("/s2", "../x")]
        false false).res = .error (.unsafeDest "../x") ∧
    (apply_links ⟨[], ["/s1", "/s2"]⟩ "/wt" [("/s1", ".a"), ("/s2", "../x")]
        false false).trace.countP isSymlinkEvent = 1 := by
  refine ⟨by decide, by decide⟩

/-- C1 amended: when processing reaches a spec whose destination is
absolute or contains a parent-traversal segment and whose source exists,
`apply_links` dies with the unsafe-destination error at that spec — nothing
from the offending spec onward has any effect, and the trace and state are
exactly those of the already-processed prefix (whose links may therefore
already have been created); zero links are guaranteed only when no
link-creating spec precedes the offending one. -/
theorem apply_links_unsafe_dest_halts (env : LinksEnv) (wt rawSrc rawDest : String)
    (pre post : List (String × String)) (dryRun force : Bool)
    (hok : (apply_links env wt pre dryRun force).res = .ok ())
    (hsrc : (apply_links env wt pre dryRun force).env.srcPaths.contains rawSrc = true)
    (hbad : (isAbsolutePath rawDest || (pathParts rawDest).contains "..") = true) :
    apply_links env wt (pre ++ (rawSrc, rawDest) :: post) dryRun force =
      ⟨.error (.unsafeDest rawDest),
       (apply_links env wt pre dryRun force).trace,
       (apply_links env wt pre dryRun force).env⟩ := by
  rw [apply_links_append wt ((rawSrc, rawDest) :: post) dryRun force pre env hok]
  have hmem : rawSrc ∈ (apply_links env wt pre dryRun force).env.srcPaths := by
    simpa using hsrc
  have hbad2 : isAbsolutePath rawDest = true ∨ ".." ∈ pathParts rawDest := by
    simpa using hbad
  rcases hbad2 with h | h <;> simp [apply_links, linkStep, hmem, h]

theorem apply_links_unsafe_dest_halts_witness :
    apply_links ⟨[], ["/s1", "/s2"]⟩ "/wt" [("/s1", ".a"), ("/s2", "/abs")] false false =
      ⟨.error (.unsafeDest "/abs"),
       (apply_links ⟨[], ["/s1", "/s2"]⟩ "/wt" [("/s1", ".a")] false false).trace,
       (apply_links ⟨[], ["/s1", "/s2"]⟩ "/wt" [("/s1", ".a")] false false).env⟩ :=
  apply_links_unsafe_dest_halts ⟨[], ["/s1", "/s2"]⟩ "/wt" "/s2" "/abs" [("/s1", ".a")]
    [] false false (by decide) (by decide) (by decide)

/-- C5: force never deletes a real directory — when processing reaches a
spec whose source exists, whose destination is a safe non-trivial relative
path, and whose resolved destination currently holds a directory that is
not itself a symlink, `apply_links` with force set dies with the
force-refused error at that spec, before removing anything: the trace
gains no event, the state is unchanged, and the directory entry is still
present afterwards. -/
theorem apply_links_force_dir_refused (env : LinksEnv) (wt rawSrc rawDest : String)
    (pre post : List (String × String)) (dryRun : Bool)
    (hok : (apply_links env wt pre dryRun true).res = .ok ())
    (hsrc : (apply_links env wt pre dryRun true).env.srcPaths.contains rawSrc = true)
    (habs : isAbsolutePath rawDest = false)
    (hdd : (pathParts rawDest).contains ".." = false)
    (hne : pathParts rawDest ≠ [])
    (hdir : (apply_links env wt pre dryRun true).env.fs.lookup
              (joinUnder wt (pathParts rawDest)) = some .dir) :
    apply_links env wt (pre ++ (rawSrc, rawDest) :: post) dryRun true =
      ⟨.error (.forceDirRefused (joinUnder wt (pathParts rawDest))),
       (apply_links env wt pre dryRun true).trace,
       (apply_links env wt pre dryRun true).env⟩ ∧
    (apply_links env wt (pre ++ (rawSrc, rawDest) :: post) dryRun true).env.fs.lookup
        (joinUnder wt (pathParts rawDest)) = some .dir := by
  have hmain : apply_links env wt (pre ++ (rawSrc, rawDest) :: post) dryRun true =
      ⟨.error (.forceDirRefused (joinUnder wt (pathParts rawDest))),
       (apply_links env wt pre dryRun true).trace,
       (apply_links env wt pre dryRun true).env⟩ := by
    rw [apply_links_append wt ((rawSrc, rawDest) :: post) dryRun true pre env hok]
    have hmem : rawSrc ∈ (apply_links env wt pre dryRun true).env.srcPaths := by
      simpa using hsrc
    have hdd2 : ".." ∉ pathParts rawDest := by simpa using hdd
    simp [apply_links, linkStep, hmem, habs, hdd2, strStarts_joinUnder wt _ hne, hdir,
          sameSymlink]
  exact ⟨hmain, by rw [hmain]; exact hdir⟩

theorem apply_links_force_dir_refused_witness :
    apply_links ⟨[("/wt/cfg", .dir)], ["/s"]⟩ "/wt" [("/s", "cfg")] false true =
      ⟨.error (.forceDirRefused "/wt/cfg"), [], ⟨[("/wt/cfg", .dir)], ["/s"]⟩⟩ ∧
    (apply_links ⟨[("/wt/cfg", .dir)], ["/s"]⟩ "/wt" [("/s", "cfg")]
        false true).env.fs.lookup "/wt/cfg" = some .dir :=
  apply_links_force_dir_refused ⟨[("/wt/cfg", .dir)], ["/s"]⟩ "/wt" "/s" "cfg" [] []
    false rfl (by decide) (by decide) (by decide) (by decide) (by decide)
